import Mathlib

/-!
Verification of the Sentin-L industrial monitoring program (`src/main.c`).

The C program is a single sequential loop: it simulates a temperature and a
vibration sensor, classifies the reading against fixed thresholds, appends the
reading to a CSV log file, prints a dashboard, runs a two-point linear
failure prediction, and halts on the first CRITICAL reading.

Modelling conventions for the shallow embedding:
* C `float`/`double` arithmetic is modelled by exact rational arithmetic (`ℚ`).
* `time_step` and `timestamp` only ever hold the values 0,1,2,…, and `status`
  only 0/1/2, so those `int` fields are modelled as `ℕ`.
* The two `rand()`-derived noise values of a tick are passed in explicitly;
  a run of the loop is parametrised by the stream of noise values.
* File I/O is modelled by a list of abstract log lines; whether an `fopen`
  for append succeeds on a given tick is an explicit oracle parameter.
* The unbounded `while (1)` loop is modelled with an explicit fuel parameter;
  a run that stops because fuel ran out is distinguished from a run that
  halted on a CRITICAL reading by inspecting the status of the last trace
  element (`haltedWithin`).
-/

namespace SentinL

/-- C `#define CRITICAL_TEMP 100.0` (main.c line 22). -/
def CRITICAL_TEMP : ℚ := 100

/-- C `#define CRITICAL_VIBRATION 50.0` (main.c line 23). -/
def CRITICAL_VIBRATION : ℚ := 50

/-- The C struct `SensorData` (main.c lines 26-31). -/
structure SensorData where
  timestamp : ℕ
  temperature : ℚ
  vibration : ℚ
  status : ℕ
deriving DecidableEq

/-- The status computation inlined in `read_sensors` (main.c lines 50-56):
CRITICAL (2) when temperature or vibration strictly exceeds its limit, else
WARNING (1) when temperature strictly exceeds `CRITICAL_TEMP * 0.8`, else OK (0). -/
def classify (temperature vibration : ℚ) : ℕ :=
  if temperature > CRITICAL_TEMP ∨ vibration > CRITICAL_VIBRATION then 2
  else if temperature > CRITICAL_TEMP * 0.8 then 1
  else 0

/-- Embedding of `read_sensors` (main.c lines 35-59), with the two `rand()`-derived noise
summands passed in explicitly. -/
def read_sensors (time_step : ℕ) (random_noise_temp random_noise_vib : ℚ) : SensorData :=
  let temperature : ℚ := 40 + time_step * 3 + random_noise_temp
  let vibration : ℚ := 10 + time_step * 1.5 + random_noise_vib
  { timestamp := time_step
    temperature := temperature
    vibration := vibration
    status := classify temperature vibration }

/-- glibc value of `RAND_MAX` (`rand()` returns an int in `[0, RAND_MAX]`). -/
def RAND_MAX : ℕ := 2147483647

/-- The temperature noise `((float)rand() / RAND_MAX) * 2.0` (main.c line 40),
as a function of the value `r` returned by `rand()`. -/
def noise_temp (r : ℕ) : ℚ := ((r : ℚ) / (RAND_MAX : ℚ)) * 2

/-- The vibration noise `((float)rand() / RAND_MAX) * 1.0` (main.c line 41). -/
def noise_vib (r : ℕ) : ℚ := ((r : ℚ) / (RAND_MAX : ℚ)) * 1

/-- Deterministic component of the temperature: `40.0 + time_step * 3.0`
(main.c line 44). -/
def det_temp (t : ℕ) : ℚ := 40 + t * 3

/-- Deterministic component of the vibration: `10.0 + time_step * 1.5`
(main.c line 47). -/
def det_vib (t : ℕ) : ℚ := 10 + t * 1.5

/-- What `predict_failure` prints (main.c lines 77-102): the stable message,
the urgent alert with the projected step count, or the safe-for-N-steps
message with the projected step count. -/
inductive Prediction where
  | stable : Prediction
  | urgentAlert : ℚ → Prediction
  | safeFor : ℚ → Prediction
deriving DecidableEq

/-- Embedding of `predict_failure` (main.c lines 77-102). -/
def predict_failure (current previous : SensorData) : Prediction :=
  let temp_rate := current.temperature - previous.temperature
  if temp_rate ≤ 0 then Prediction.stable
  else
    let temp_diff := CRITICAL_TEMP - current.temperature
    let steps_to_failure := temp_diff / temp_rate
    let steps := if steps_to_failure < 0 then 0 else steps_to_failure
    if steps < 10 then Prediction.urgentAlert steps else Prediction.safeFor steps

/-- Division guarded against a zero divisor, used to restate `predict_failure`
with an explicit check that the divisor is nonzero. -/
def safeDiv (a b : ℚ) : Option ℚ := if b = 0 then none else some (a / b)

/-- Variant of `predict_failure` with the division routed through `safeDiv`: it returns
`none` exactly when the C code would divide by zero. -/
def predict_failure_checked (current previous : SensorData) : Option Prediction :=
  let temp_rate := current.temperature - previous.temperature
  if temp_rate ≤ 0 then some Prediction.stable
  else
    match safeDiv (CRITICAL_TEMP - current.temperature) temp_rate with
    | none => none
    | some steps_to_failure =>
      let steps := if steps_to_failure < 0 then 0 else steps_to_failure
      some (if steps < 10 then Prediction.urgentAlert steps else Prediction.safeFor steps)

/-- One line of the log file `machine_logs.csv`: either the header line
`Timestamp,Temperature,Vibration,Status` or one data row
`timestamp,temperature,vibration,status` (main.c lines 70-71, 135). -/
inductive LogLine where
  | header : LogLine
  | row : ℕ → ℚ → ℚ → ℕ → LogLine
deriving DecidableEq

/-- The CSV row written for a reading by `fprintf` (main.c line 71). -/
def rowOf (d : SensorData) : LogLine :=
  LogLine.row d.timestamp d.temperature d.vibration d.status

/-- Whether a log line is the header line. -/
def LogLine.isHeader : LogLine → Bool
  | LogLine.header => true
  | LogLine.row _ _ _ _ => false

/-- Timestamp field of a data row (0 for the header). -/
def LogLine.timestampOf : LogLine → ℕ
  | LogLine.header => 0
  | LogLine.row ts _ _ _ => ts

/-- Status field of a data row (0 for the header). -/
def LogLine.statusOf : LogLine → ℕ
  | LogLine.header => 0
  | LogLine.row _ _ _ st => st

/-- Embedding of `log_to_database` (main.c lines 63-73). `openOk` is whether the
`fopen(DATA_FILE, "a")` succeeds. On failure the function prints an error
message and returns without writing. Result: the file contents after the
call, paired with whether the error message was printed. -/
def log_to_database (openOk : Bool) (data : SensorData) (file : List LogLine) :
    List LogLine × Bool :=
  if openOk then (file ++ [rowOf data], false) else (file, true)

/-- The startup header write (main.c lines 134-136): `fopen(DATA_FILE, "w")`
truncates any prior content, then `fprintf`/`fclose` run with NO check that
the returned pointer is non-NULL. A failed open therefore reaches
`fprintf(NULL, …)`, undefined behavior, modelled as `none`. -/
def startup (prior : List LogLine) (openOk : Bool) : Option (List LogLine) :=
  if openOk then some [LogLine.header] else none

/-- The value `SensorData prev_data = {0, 0.0, 0.0, 0}` (main.c line 143). -/
def prev_data_init : SensorData :=
  { timestamp := 0, temperature := 0, vibration := 0, status := 0 }

/-- Ghost record of one iteration of the monitoring loop (main.c lines
147-175): the tick number, the reading acquired, whether the per-tick
`fopen` for append succeeded (so the row was written), and the prediction
printed (none on tick 1, per the `time_step > 1` guard on line 160). -/
structure TickTrace where
  tick : ℕ
  reading : SensorData
  logWritten : Bool
  prediction : Option Prediction
deriving DecidableEq

/-- The reading acquired at tick `t` for a given noise stream. -/
def readAt (noise : ℕ → ℚ × ℚ) (t : ℕ) : SensorData :=
  read_sensors t (noise t).1 (noise t).2

/-- The trace record of the iteration with `time_step = t`, whose previous
reading is `prev`. -/
def mkTrace (noise : ℕ → ℚ × ℚ) (openOk : ℕ → Bool) (t : ℕ) (prev : SensorData) :
    TickTrace :=
  { tick := t
    reading := readAt noise t
    logWritten := openOk t
    prediction := if 1 < t then some (predict_failure (readAt noise t) prev) else none }

/-- The monitoring loop (main.c lines 147-175), as a fuel-indexed recursion.
`t` is the current `time_step` (already incremented, line 148), `prev` is
`prev_data`. Each iteration acquires a reading, records the iteration, and
stops after the iteration whose reading has status 2 (the `break` on line
168); otherwise `prev_data = current_data` and the loop continues. -/
def loopRun (noise : ℕ → ℚ × ℚ) (openOk : ℕ → Bool) :
    ℕ → ℕ → SensorData → List TickTrace
  | 0, _, _ => []
  | fuel + 1, t, prev =>
    if (readAt noise t).status = 2 then [mkTrace noise openOk t prev]
    else mkTrace noise openOk t prev :: loopRun noise openOk fuel (t + 1) (readAt noise t)

/-- The fields of a trace record that do not concern the log file: the loop's
control flow, readings, dashboard contents and predictions. -/
def traceCore (tr : TickTrace) : ℕ × SensorData × Option Prediction :=
  (tr.tick, tr.reading, tr.prediction)

/-- One per-tick append to the log file, feeding the tick's open-success bit
into `log_to_database`. -/
def appendLog (file : List LogLine) (tr : TickTrace) : List LogLine :=
  (log_to_database tr.logWritten tr.reading file).1

/-- The contents of `machine_logs.csv` after a run of `main`: the startup
header write (truncating `prior`), then the per-tick appends performed by the
loop. `none` when the startup open fails (undefined behavior). -/
def fileAfterRun (prior : List LogLine) (startOk : Bool) (noise : ℕ → ℚ × ℚ)
    (openOk : ℕ → Bool) (fuel : ℕ) : Option (List LogLine) :=
  (startup prior startOk).map
    (fun f0 => (loopRun noise openOk fuel 1 prev_data_init).foldl appendLog f0)

/-- Whether the run reached the `break` on line 168 within the given fuel:
the last executed iteration (if any) read a CRITICAL status. -/
def haltedWithin (noise : ℕ → ℚ × ℚ) (openOk : ℕ → Bool) (fuel : ℕ) : Bool :=
  match (loopRun noise openOk fuel 1 prev_data_init).getLast? with
  | some tr => tr.reading.status == 2
  | none => false

/-- The exit status of `main`: 0 when the loop halted (line 178 `return 0`),
undefined within the given fuel otherwise. -/
def main_result (noise : ℕ → ℚ × ℚ) (openOk : ℕ → Bool) (fuel : ℕ) : Option ℕ :=
  if haltedWithin noise openOk fuel then some 0 else none

/-! ### Structural lemmas about the loop -/

/-- The loop executes at most `fuel` iterations. -/
lemma loopRun_length_le (noise : ℕ → ℚ × ℚ) (openOk : ℕ → Bool) :
    ∀ (fuel t : ℕ) (prev : SensorData),
      (loopRun noise openOk fuel t prev).length ≤ fuel := by
  intro fuel
  induction fuel with
  | zero => intro t prev; simp [loopRun]
  | succ f ih =>
    intro t prev
    rw [loopRun]
    split
    · simp
    · simpa using ih (t + 1) (readAt noise t)

/-- Characterisation of the `i`-th executed iteration: it is the iteration of
tick `t + i`, and its previous reading is the reading of the preceding tick
(or the initial `prev` for the first iteration). -/
lemma loopRun_getElem? (noise : ℕ → ℚ × ℚ) (openOk : ℕ → Bool) :
    ∀ (fuel t : ℕ) (prev : SensorData) (i : ℕ),
      i < (loopRun noise openOk fuel t prev).length →
      (loopRun noise openOk fuel t prev)[i]?
        = some (mkTrace noise openOk (t + i)
            (if i = 0 then prev else readAt noise (t + i - 1))) := by
  intro fuel
  induction fuel with
  | zero => intro t prev i h; simp [loopRun] at h
  | succ f ih =>
    intro t prev i h
    by_cases hc : (readAt noise t).status = 2
    · rw [loopRun, if_pos hc] at h ⊢
      simp only [List.length_singleton] at h
      have hi0 : i = 0 := by omega
      subst hi0
      simp
    · rw [loopRun, if_neg hc] at h ⊢
      cases i with
      | zero => simp
      | succ j =>
        simp only [List.length_cons, Nat.succ_lt_succ_iff] at h
        simp only [List.getElem?_cons_succ]
        rw [ih (t + 1) (readAt noise t) j h]
        cases j with
        | zero => simp
        | succ j' =>
          have h1 : t + 1 + (j' + 1) = t + (j' + 1 + 1) := by omega
          have h2 : t + 1 + (j' + 1) - 1 = t + (j' + 1 + 1) - 1 := by omega
          simp only [Nat.succ_ne_zero, if_neg, h1, h2]
          simp

/-- The `List.get` form of `loopRun_getElem?`. -/
lemma loopRun_get (noise : ℕ → ℚ × ℚ) (openOk : ℕ → Bool)
    (fuel t : ℕ) (prev : SensorData) (i : ℕ)
    (h : i < (loopRun noise openOk fuel t prev).length) :
    (loopRun noise openOk fuel t prev).get ⟨i, h⟩
      = mkTrace noise openOk (t + i)
          (if i = 0 then prev else readAt noise (t + i - 1)) := by
  have h2 : (loopRun noise openOk fuel t prev)[i]?
      = some ((loopRun noise openOk fuel t prev).get ⟨i, h⟩) := by
    simp [List.getElem?_eq_getElem h]
  rw [loopRun_getElem? noise openOk fuel t prev i h] at h2
  exact (Option.some.inj h2).symm

/-- If no tick in `[t, t+j)` is CRITICAL and tick `t+j` is, the loop executes
exactly `j + 1` iterations. -/
lemma loopRun_length_first_crit (noise : ℕ → ℚ × ℚ) (openOk : ℕ → Bool) :
    ∀ (fuel t : ℕ) (prev : SensorData) (j : ℕ),
      j < fuel →
      (∀ k, k < j → (readAt noise (t + k)).status ≠ 2) →
      (readAt noise (t + j)).status = 2 →
      (loopRun noise openOk fuel t prev).length = j + 1 := by
  intro fuel
  induction fuel with
  | zero => intro t prev j hj _ _; omega
  | succ f ih =>
    intro t prev j hj hpre hcrit
    cases j with
    | zero =>
      rw [loopRun, if_pos (by simpa using hcrit)]
      simp
    | succ j' =>
      have h0 : (readAt noise t).status ≠ 2 := by
        have := hpre 0 (Nat.succ_pos j')
        simpa using this
      rw [loopRun, if_neg h0]
      simp only [List.length_cons]
      have : (loopRun noise openOk f (t + 1) (readAt noise t)).length = j' + 1 := by
        refine ih (t + 1) (readAt noise t) j' (by omega) ?_ ?_
        · intro k hk
          have := hpre (k + 1) (by omega)
          simpa [Nat.add_assoc, Nat.add_comm 1 k] using this
        · have h1 : t + 1 + j' = t + (j' + 1) := by omega
          rw [h1]; exact hcrit
      omega

/-- If some tick within the fuel budget is CRITICAL, the loop stops no later
than the first such tick. -/
lemma loopRun_length_le_of_crit (noise : ℕ → ℚ × ℚ) (openOk : ℕ → Bool) :
    ∀ (fuel t : ℕ) (prev : SensorData) (k : ℕ),
      k < fuel →
      (readAt noise (t + k)).status = 2 →
      (loopRun noise openOk fuel t prev).length ≤ k + 1 := by
  intro fuel
  induction fuel with
  | zero => intro t prev k hk _; omega
  | succ f ih =>
    intro t prev k hk hcrit
    by_cases hc : (readAt noise t).status = 2
    · rw [loopRun, if_pos hc]; simp
    · rw [loopRun, if_neg hc]
      cases k with
      | zero => exact absurd (by simpa using hcrit) hc
      | succ k' =>
        simp only [List.length_cons, Nat.succ_le_succ_iff]
        refine ih (t + 1) (readAt noise t) k' (by omega) ?_
        have h1 : t + 1 + k' = t + (k' + 1) := by omega
        rw [h1]; exact hcrit

/-- If some tick within the fuel budget is CRITICAL, the run halts: its last
executed iteration read a CRITICAL status. -/
lemma loopRun_getLast_crit (noise : ℕ → ℚ × ℚ) (openOk : ℕ → Bool) :
    ∀ (fuel t : ℕ) (prev : SensorData),
      (∃ k, k < fuel ∧ (readAt noise (t + k)).status = 2) →
      ∃ tr, (loopRun noise openOk fuel t prev).getLast? = some tr
        ∧ tr.reading.status = 2 := by
  intro fuel
  induction fuel with
  | zero => rintro t prev ⟨k, hk, _⟩; omega
  | succ f ih =>
    rintro t prev ⟨k, hk, hcrit⟩
    by_cases hc : (readAt noise t).status = 2
    · refine ⟨mkTrace noise openOk t prev, ?_, by simpa [mkTrace] using hc⟩
      rw [loopRun, if_pos hc]
      rfl
    · have hk0 : k ≠ 0 := by
        intro h; subst h; exact hc (by simpa using hcrit)
      obtain ⟨tr, htr, hst⟩ := ih (t + 1) (readAt noise t)
        ⟨k - 1, by omega, by
          have h1 : t + 1 + (k - 1) = t + k := by omega
          rw [h1]; exact hcrit⟩
      refine ⟨tr, ?_, hst⟩
      rw [loopRun, if_neg hc]
      rw [List.getLast?_cons]
      have hne : loopRun noise openOk f (t + 1) (readAt noise t) ≠ [] := by
        intro hnil; rw [hnil] at htr; simp at htr
      simp [List.getLast?_eq_getLast _ hne] at htr ⊢
      obtain ⟨h', rfl⟩ := htr
      simp [List.getLastD_eq_getLast?, List.getLast?_eq_getLast _ hne]

/-- Every executed iteration records whether its own tick's `fopen` for
append succeeded. -/
lemma loopRun_logWritten (noise : ℕ → ℚ × ℚ) (openOk : ℕ → Bool) :
    ∀ (fuel t : ℕ) (prev : SensorData),
      ∀ tr ∈ loopRun noise openOk fuel t prev, tr.logWritten = openOk tr.tick := by
  intro fuel
  induction fuel with
  | zero => intro t prev tr htr; simp [loopRun] at htr
  | succ f ih =>
    intro t prev tr htr
    by_cases hc : (readAt noise t).status = 2
    · rw [loopRun, if_pos hc] at htr
      simp at htr
      subst htr
      rfl
    · rw [loopRun, if_neg hc] at htr
      rcases List.mem_cons.mp htr with h | h
      · subst h; rfl
      · exact ih (t + 1) (readAt noise t) tr h

/-- The loop's control flow, readings and predictions do not depend on the
open-success oracle of the logger. -/
lemma loopRun_traceCore (noise : ℕ → ℚ × ℚ) (openOk openOk' : ℕ → Bool) :
    ∀ (fuel t : ℕ) (prev : SensorData),
      (loopRun noise openOk fuel t prev).map traceCore
        = (loopRun noise openOk' fuel t prev).map traceCore := by
  intro fuel
  induction fuel with
  | zero => intro t prev; simp [loopRun]
  | succ f ih =>
    intro t prev
    by_cases hc : (readAt noise t).status = 2
    · rw [loopRun, loopRun, if_pos hc, if_pos hc]
      simp [traceCore, mkTrace]
    · rw [loopRun, loopRun, if_neg hc, if_neg hc]
      simp only [List.map_cons]
      rw [ih (t + 1) (readAt noise t)]
      simp [traceCore, mkTrace]

/-- Folding the per-tick appends over an initial file appends exactly the
rows of the iterations whose open succeeded, in order. -/
lemma foldl_appendLog :
    ∀ (trace : List TickTrace) (f0 : List LogLine),
      trace.foldl appendLog f0
        = f0 ++ (trace.filter (fun tr => tr.logWritten)).map (fun tr => rowOf tr.reading) := by
  intro trace
  induction trace with
  | nil => intro f0; simp
  | cons tr rest ih =>
    intro f0
    by_cases hw : tr.logWritten
    · simp only [List.foldl_cons, List.filter_cons, hw, if_pos]
      rw [ih]
      simp [appendLog, log_to_database, hw]
    · simp only [List.foldl_cons, List.filter_cons]
      rw [if_neg (by simpa using hw)]
      rw [ih]
      simp [appendLog, log_to_database, hw]

/-- If no tick within the fuel budget is CRITICAL, the loop runs out of
fuel after exactly `fuel` iterations. -/
lemma loopRun_length_of_no_crit (noise : ℕ → ℚ × ℚ) (openOk : ℕ → Bool) :
    ∀ (fuel t : ℕ) (prev : SensorData),
      (∀ k, k < fuel → (readAt noise (t + k)).status ≠ 2) →
      (loopRun noise openOk fuel t prev).length = fuel := by
  intro fuel
  induction fuel with
  | zero => intro t prev _; simp [loopRun]
  | succ f ih =>
    intro t prev hno
    have h0 : (readAt noise t).status ≠ 2 := by simpa using hno 0 (Nat.succ_pos f)
    rw [loopRun, if_neg h0]
    simp only [List.length_cons]
    have htail : (loopRun noise openOk f (t + 1) (readAt noise t)).length = f := by
      refine ih (t + 1) (readAt noise t) ?_
      intro k hk
      have := hno (k + 1) (by omega)
      simpa [Nat.add_assoc, Nat.add_comm 1 k] using this
    omega

/-- Every executed iteration is the `mkTrace` record of some tick. -/
lemma loopRun_mem_mk (noise : ℕ → ℚ × ℚ) (openOk : ℕ → Bool) :
    ∀ (fuel t : ℕ) (prev : SensorData),
      ∀ tr ∈ loopRun noise openOk fuel t prev,
        ∃ u p, tr = mkTrace noise openOk u p := by
  intro fuel
  induction fuel with
  | zero => intro t prev tr htr; simp [loopRun] at htr
  | succ f ih =>
    intro t prev tr htr
    by_cases hc : (readAt noise t).status = 2
    · rw [loopRun, if_pos hc] at htr
      simp at htr
      exact ⟨t, prev, htr⟩
    · rw [loopRun, if_neg hc] at htr
      rcases List.mem_cons.mp htr with h | h
      · exact ⟨t, prev, h⟩
      · exact ih (t + 1) (readAt noise t) tr h

/-- The classifier only produces the codes 0, 1 and 2. -/
lemma classify_lt_three (t v : ℚ) : classify t v < 3 := by
  unfold classify
  split_ifs <;> omega

/-- When every per-tick `fopen` succeeds, the file after the run is the
header followed by one row per executed iteration. -/
lemma fileAfterRun_of_open (noise : ℕ → ℚ × ℚ) (openOk : ℕ → Bool)
    (prior : List LogLine) (fuel : ℕ) (hopen : ∀ t, openOk t = true) :
    fileAfterRun prior true noise openOk fuel
      = some (LogLine.header ::
          (loopRun noise openOk fuel 1 prev_data_init).map (fun tr => rowOf tr.reading)) := by
  have hfilter : (loopRun noise openOk fuel 1 prev_data_init).filter
      (fun tr => tr.logWritten) = loopRun noise openOk fuel 1 prev_data_init := by
    apply List.filter_eq_self.mpr
    intro tr htr
    rw [loopRun_logWritten noise openOk fuel 1 prev_data_init tr htr]
    exact hopen tr.tick
  have h1 : fileAfterRun prior true noise openOk fuel
      = some (List.foldl appendLog [LogLine.header]
          (loopRun noise openOk fuel 1 prev_data_init)) := rfl
  rw [h1, foldl_appendLog, hfilter]
  rfl

/-! ### Claim theorems -/

/-- C1: the classifier is a pure function of (temperature, vibration): it
returns CRITICAL (2) exactly when temperature > 100 or vibration > 50,
otherwise WARNING (1) exactly when temperature > 80, otherwise OK (0); all
comparisons are strict, so a value exactly at a threshold classifies as the
lower tier (temperature 100 with low vibration is WARNING, temperature 80 is
OK); the status field of every reading is this function of the reading's
temperature and vibration. -/
theorem classify_thresholds :
    (∀ t v : ℚ,
      ((classify t v = 2) ↔ (t > 100 ∨ v > 50))
      ∧ ((classify t v = 1) ↔ (t ≤ 100 ∧ v ≤ 50 ∧ t > 80))
      ∧ ((classify t v = 0) ↔ (t ≤ 100 ∧ v ≤ 50 ∧ t ≤ 80)))
    ∧ (∀ (ts : ℕ) (nt nv : ℚ),
        (read_sensors ts nt nv).status
          = classify (read_sensors ts nt nv).temperature (read_sensors ts nt nv).vibration)
    ∧ classify 100 40 = 1 ∧ classify 80 40 = 0
    ∧ classify 100.1 10 = 2 ∧ classify 85 10 = 1 ∧ classify 50 10 = 0 := by
  have hc : ∀ t v : ℚ,
      ((classify t v = 2) ↔ (t > 100 ∨ v > 50))
      ∧ ((classify t v = 1) ↔ (t ≤ 100 ∧ v ≤ 50 ∧ t > 80))
      ∧ ((classify t v = 0) ↔ (t ≤ 100 ∧ v ≤ 50 ∧ t ≤ 80)) := by
    intro t v
    have h08 : CRITICAL_TEMP * 0.8 = 80 := by norm_num [CRITICAL_TEMP]
    unfold classify
    rw [h08]
    unfold CRITICAL_TEMP CRITICAL_VIBRATION
    split_ifs with h1 h2
    · refine ⟨iff_of_true rfl h1, ?_, ?_⟩
      · apply iff_of_false
        · decide
        · rintro ⟨a, b, -⟩
          rcases h1 with h | h <;> linarith
      · apply iff_of_false
        · decide
        · rintro ⟨a, b, -⟩
          rcases h1 with h | h <;> linarith
    · push_neg at h1
      refine ⟨?_, iff_of_true rfl ⟨h1.1, h1.2, h2⟩, ?_⟩
      · apply iff_of_false
        · decide
        · rintro (h | h) <;> [exact absurd h1.1 (not_le.mpr h); exact absurd h1.2 (not_le.mpr h)]
      · apply iff_of_false
        · decide
        · rintro ⟨-, -, a⟩
          linarith
    · push_neg at h1 h2
      refine ⟨?_, ?_, iff_of_true rfl ⟨h1.1, h1.2, h2⟩⟩
      · apply iff_of_false
        · decide
        · rintro (h | h) <;> [exact absurd h1.1 (not_le.mpr h); exact absurd h1.2 (not_le.mpr h)]
      · apply iff_of_false
        · decide
        · rintro ⟨-, -, a⟩
          linarith
  refine ⟨hc, fun ts nt nv => rfl, ?_, ?_, ?_, ?_, ?_⟩
  · exact (hc 100 40).2.1.mpr ⟨le_refl _, by norm_num, by norm_num⟩
  · exact (hc 80 40).2.2.mpr ⟨by norm_num, by norm_num, le_refl _⟩
  · exact (hc 100.1 10).1.mpr (Or.inl (by norm_num))
  · exact (hc 85 10).2.1.mpr ⟨by norm_num, by norm_num, by norm_num⟩
  · exact (hc 50 10).2.2.mpr ⟨by norm_num, by norm_num, by norm_num⟩

/-- C2: the predictor returns the stable message when
`current.temperature − previous.temperature ≤ 0`, and otherwise projects
`(100 − current.temperature) / rate` clamped to be ≥ 0, emitting the urgent
alert exactly when the projection is below 10 and the safe-for-N-steps
message otherwise. -/
theorem predict_failure_spec (c p : SensorData) :
    (c.temperature - p.temperature ≤ 0 → predict_failure c p = Prediction.stable)
    ∧ (0 < c.temperature - p.temperature →
        predict_failure c p =
          if max 0 ((CRITICAL_TEMP - c.temperature) / (c.temperature - p.temperature)) < 10
          then Prediction.urgentAlert
            (max 0 ((CRITICAL_TEMP - c.temperature) / (c.temperature - p.temperature)))
          else Prediction.safeFor
            (max 0 ((CRITICAL_TEMP - c.temperature) / (c.temperature - p.temperature)))) := by
  constructor
  · intro h
    simp only [predict_failure]
    rw [if_pos h]
  · intro h
    have hne : ¬(c.temperature - p.temperature ≤ 0) := not_le.mpr h
    have hmax : (if (CRITICAL_TEMP - c.temperature) / (c.temperature - p.temperature) < 0
        then (0 : ℚ)
        else (CRITICAL_TEMP - c.temperature) / (c.temperature - p.temperature))
        = max 0 ((CRITICAL_TEMP - c.temperature) / (c.temperature - p.temperature)) := by
      rcases lt_or_le ((CRITICAL_TEMP - c.temperature) / (c.temperature - p.temperature)) 0
        with h' | h'
      · rw [if_pos h', max_eq_left h'.le]
      · rw [if_neg (not_lt.mpr h'), max_eq_right h']
    simp only [predict_failure]
    rw [if_neg hne, hmax]

/-- Witness for C2: with previous temperature 70 and current temperature 75
the rate is 5 > 0, the projection is (100−75)/5 = 5 < 10, and the urgent
alert is emitted. -/
theorem predict_failure_spec_witness :
    (0 : ℚ) <
        (SensorData.mk 2 75 12 0).temperature - (SensorData.mk 1 70 11 0).temperature
    ∧ predict_failure (SensorData.mk 2 75 12 0) (SensorData.mk 1 70 11 0)
        = Prediction.urgentAlert 5 := by
  refine ⟨by norm_num, ?_⟩
  have h := (predict_failure_spec (SensorData.mk 2 75 12 0) (SensorData.mk 1 70 11 0)).2
    (by norm_num)
  rw [h]
  norm_num [CRITICAL_TEMP]

/-- C8: the quotient in the predictor is evaluated only on the branch where
the rate is strictly positive (the rate ≤ 0 case returns early), so routing
the division through a zero-checked division never fails and agrees with
`predict_failure` everywhere. -/
theorem predict_no_div_by_zero (c p : SensorData) :
    predict_failure_checked c p = some (predict_failure c p) := by
  by_cases h : c.temperature - p.temperature ≤ 0
  · simp only [predict_failure_checked, predict_failure]
    rw [if_pos h, if_pos h]
  · have hne : c.temperature - p.temperature ≠ 0 := fun h0 => h (le_of_eq h0)
    simp only [predict_failure_checked, predict_failure, safeDiv]
    rw [if_neg h, if_neg h, if_neg hne]

/-- C9: the startup header write does not check the result of
`fopen(DATA_FILE, "w")`: a failed open there reaches `fprintf(NULL, …)`
(undefined behavior, modelled as `none`, poisoning the whole run's file),
whereas the per-tick append handles a failed open non-fatally, printing the
error and leaving the file unchanged. -/
theorem startup_open_unchecked (prior : List LogLine) (noise : ℕ → ℚ × ℚ)
    (openOk : ℕ → Bool) (fuel : ℕ) (d : SensorData) (file : List LogLine) :
    startup prior false = none
    ∧ fileAfterRun prior false noise openOk fuel = none
    ∧ log_to_database false d file = (file, true)
    ∧ startup prior true = some [LogLine.header] := by
  refine ⟨rfl, ?_, rfl, rfl⟩
  simp [fileAfterRun, startup]

/-- C5: a reading of tick `t` has temperature `40 + 3t + n_t` and vibration
`10 + 1.5t + n_v`, where the `rand()`-derived noise terms lie in `[0, 2]`
and `[0, 1]` respectively; the deterministic components are strictly
increasing (hence non-decreasing) in the tick. -/
theorem read_sensors_trend (t r rv : ℕ) (hr : r ≤ RAND_MAX) (hrv : rv ≤ RAND_MAX) :
    ((read_sensors t (noise_temp r) (noise_vib rv)).temperature
        = det_temp t + noise_temp r)
    ∧ ((read_sensors t (noise_temp r) (noise_vib rv)).vibration
        = det_vib t + noise_vib rv)
    ∧ (0 ≤ noise_temp r ∧ noise_temp r ≤ 2)
    ∧ (0 ≤ noise_vib rv ∧ noise_vib rv ≤ 1)
    ∧ (∀ s u : ℕ, s ≤ u → det_temp s ≤ det_temp u ∧ det_vib s ≤ det_vib u)
    ∧ (∀ s u : ℕ, s < u → det_temp s < det_temp u ∧ det_vib s < det_vib u) := by
  have hR : (0 : ℚ) < (RAND_MAX : ℚ) := by norm_num [RAND_MAX]
  have hdivr : ((r : ℚ) / (RAND_MAX : ℚ)) ≤ 1 :=
    (div_le_one hR).mpr (by exact_mod_cast hr)
  have hdivrv : ((rv : ℚ) / (RAND_MAX : ℚ)) ≤ 1 :=
    (div_le_one hR).mpr (by exact_mod_cast hrv)
  have hposr : (0 : ℚ) ≤ (r : ℚ) / (RAND_MAX : ℚ) := by positivity
  have hposrv : (0 : ℚ) ≤ (rv : ℚ) / (RAND_MAX : ℚ) := by positivity
  refine ⟨rfl, rfl, ⟨?_, ?_⟩, ⟨?_, ?_⟩, ?_, ?_⟩
  · unfold noise_temp; positivity
  · unfold noise_temp; linarith
  · unfold noise_vib; positivity
  · unfold noise_vib; linarith
  · intro s u hsu
    have hc : (s : ℚ) ≤ (u : ℚ) := by exact_mod_cast hsu
    unfold det_temp det_vib
    constructor <;> linarith
  · intro s u hsu
    have hc : (s : ℚ) < (u : ℚ) := by exact_mod_cast hsu
    unfold det_temp det_vib
    constructor <;> [linarith; nlinarith]

/-- Witness for C5 at tick 1 with both `rand()` results 0. -/
theorem read_sensors_trend_witness :
    (0 ≤ RAND_MAX ∧ 0 ≤ RAND_MAX)
    ∧ (((read_sensors 1 (noise_temp 0) (noise_vib 0)).temperature
          = det_temp 1 + noise_temp 0)
      ∧ ((read_sensors 1 (noise_temp 0) (noise_vib 0)).vibration
          = det_vib 1 + noise_vib 0)
      ∧ (0 ≤ noise_temp 0 ∧ noise_temp 0 ≤ 2)
      ∧ (0 ≤ noise_vib 0 ∧ noise_vib 0 ≤ 1)
      ∧ (∀ s u : ℕ, s ≤ u → det_temp s ≤ det_temp u ∧ det_vib s ≤ det_vib u)
      ∧ (∀ s u : ℕ, s < u → det_temp s < det_temp u ∧ det_vib s < det_vib u)) :=
  ⟨⟨Nat.zero_le _, Nat.zero_le _⟩,
    read_sensors_trend 1 0 0 (Nat.zero_le _) (Nat.zero_le _)⟩

/-- C6: a failed per-tick `fopen` for append is reported and non-fatal: the
loop's control flow, readings, predictions (and hence the rendered
dashboard and the halting tick) are identical whatever the open-success
oracle; on a failing tick `log_to_database` reports the error and leaves
the file unchanged, and the file after the run contains rows exactly for
the ticks whose open succeeded. -/
theorem log_open_failure_nonfatal (noise : ℕ → ℚ × ℚ) (openOk openOk' : ℕ → Bool)
    (fuel : ℕ) (prior : List LogLine) (d : SensorData) (file : List LogLine) :
    ((loopRun noise openOk fuel 1 prev_data_init).map traceCore
        = (loopRun noise openOk' fuel 1 prev_data_init).map traceCore)
    ∧ ((loopRun noise openOk fuel 1 prev_data_init).length
        = (loopRun noise openOk' fuel 1 prev_data_init).length)
    ∧ log_to_database false d file = (file, true)
    ∧ log_to_database true d file = (file ++ [rowOf d], false)
    ∧ (fileAfterRun prior true noise openOk fuel
        = some (LogLine.header ::
            ((loopRun noise openOk fuel 1 prev_data_init).filter
              (fun tr => tr.logWritten)).map (fun tr => rowOf tr.reading))) := by
  refine ⟨loopRun_traceCore noise openOk openOk' fuel 1 prev_data_init, ?_, rfl, rfl, ?_⟩
  · have h := congrArg List.length (loopRun_traceCore noise openOk openOk' fuel 1 prev_data_init)
    simpa using h
  · have h1 : fileAfterRun prior true noise openOk fuel
        = some (List.foldl appendLog [LogLine.header]
            (loopRun noise openOk fuel 1 prev_data_init)) := rfl
    rw [h1, foldl_appendLog]
    rfl

/-- C7: the predictor runs on an iteration exactly when its tick is greater
than 1; on every iteration after the first it is applied to the current
reading and the reading of the immediately preceding tick. -/
theorem predict_invoked_iff_tick_gt_one (noise : ℕ → ℚ × ℚ) (openOk : ℕ → Bool)
    (fuel i : ℕ) (h : i < (loopRun noise openOk fuel 1 prev_data_init).length) :
    ∃ tr, (loopRun noise openOk fuel 1 prev_data_init)[i]? = some tr
      ∧ tr.tick = 1 + i
      ∧ (tr.prediction = none ↔ tr.tick = 1)
      ∧ (1 ≤ i → tr.prediction
          = some (predict_failure (readAt noise (1 + i)) (readAt noise i))) := by
  rw [loopRun_getElem? noise openOk fuel 1 prev_data_init i h]
  refine ⟨_, rfl, rfl, ?_, ?_⟩
  · cases i with
    | zero => simp [mkTrace]
    | succ j =>
      have h1 : 1 < 1 + (j + 1) := by omega
      have h2 : ¬(1 + (j + 1) = 1) := by omega
      simp [mkTrace, h1, h2]
  · intro hi
    cases i with
    | zero => omega
    | succ j =>
      have h1 : 1 < 1 + (j + 1) := by omega
      have h2 : ¬(j + 1 = 0) := by omega
      have h3 : 1 + (j + 1) - 1 = j + 1 := by omega
      simp only [mkTrace, if_pos h1, if_neg h2, h3]

/-- Witness for C7: a concrete two-tick run in which the first iteration
makes no prediction and the second predicts from ticks 2 and 1. -/
theorem predict_invoked_iff_tick_gt_one_witness :
    (1 < (loopRun (fun _ => ((0 : ℚ), (0 : ℚ))) (fun _ => true) 2 1
        prev_data_init).length)
    ∧ ∃ tr, (loopRun (fun _ => ((0 : ℚ), (0 : ℚ))) (fun _ => true) 2 1
          prev_data_init)[1]? = some tr
        ∧ tr.tick = 1 + 1
        ∧ (tr.prediction = none ↔ tr.tick = 1)
        ∧ (1 ≤ 1 → tr.prediction
            = some (predict_failure (readAt (fun _ => ((0 : ℚ), (0 : ℚ))) (1 + 1))
                (readAt (fun _ => ((0 : ℚ), (0 : ℚ))) 1))) := by
  have hlen : (loopRun (fun _ => ((0 : ℚ), (0 : ℚ))) (fun _ => true) 2 1
      prev_data_init).length = 2 := by
    apply loopRun_length_of_no_crit
    intro k hk
    interval_cases k <;>
      norm_num [readAt, read_sensors, classify, CRITICAL_TEMP, CRITICAL_VIBRATION]
  have h1 : 1 < (loopRun (fun _ => ((0 : ℚ), (0 : ℚ))) (fun _ => true) 2 1
      prev_data_init).length := by omega
  exact ⟨h1,
    predict_invoked_iff_tick_gt_one (fun _ => ((0 : ℚ), (0 : ℚ))) (fun _ => true) 2 1 h1⟩

/-- C3: if tick `n` is the first CRITICAL tick and the fuel budget reaches
it, the run executes exactly `n` iterations: every iteration before the last
is non-CRITICAL, the last iteration read a CRITICAL status, the halting
iteration's reading is still logged, and (when every open succeeds) the
file holds the header plus exactly one row per executed tick, `n + 1` lines
in all. -/
theorem loop_halts_first_critical (noise : ℕ → ℚ × ℚ) (openOk : ℕ → Bool)
    (prior : List LogLine) (n fuel : ℕ)
    (hn : 1 ≤ n) (hfuel : n ≤ fuel)
    (hcrit : (readAt noise n).status = 2)
    (hpre : ∀ m, m < n → 1 ≤ m → (readAt noise m).status ≠ 2)
    (hopen : ∀ t, openOk t = true) :
    (loopRun noise openOk fuel 1 prev_data_init).length = n
    ∧ (∀ i (h : i < (loopRun noise openOk fuel 1 prev_data_init).length),
        ((loopRun noise openOk fuel 1 prev_data_init).get ⟨i, h⟩).reading
            = readAt noise (1 + i)
        ∧ (i + 1 < n →
            ((loopRun noise openOk fuel 1 prev_data_init).get ⟨i, h⟩).reading.status ≠ 2))
    ∧ (∃ tr, (loopRun noise openOk fuel 1 prev_data_init).getLast? = some tr
        ∧ tr.reading.status = 2)
    ∧ fileAfterRun prior true noise openOk fuel
        = some (LogLine.header ::
            (loopRun noise openOk fuel 1 prev_data_init).map (fun tr => rowOf tr.reading))
    ∧ Option.map List.length (fileAfterRun prior true noise openOk fuel)
        = some (n + 1) := by
  have hcrit' : (readAt noise (1 + (n - 1))).status = 2 := by
    have h1 : 1 + (n - 1) = n := by omega
    rw [h1]; exact hcrit
  have hlen : (loopRun noise openOk fuel 1 prev_data_init).length = n := by
    have h := loopRun_length_first_crit noise openOk fuel 1 prev_data_init (n - 1)
      (by omega)
      (fun k hk => hpre (1 + k) (by omega) (by omega))
      hcrit'
    omega
  refine ⟨hlen, ?_, ?_, fileAfterRun_of_open noise openOk prior fuel hopen, ?_⟩
  · intro i h
    rw [loopRun_get noise openOk fuel 1 prev_data_init i h]
    refine ⟨rfl, ?_⟩
    intro hi
    show (readAt noise (1 + i)).status ≠ 2
    exact hpre (1 + i) (by omega) (by omega)
  · exact loopRun_getLast_crit noise openOk fuel 1 prev_data_init
      ⟨n - 1, by omega, hcrit'⟩
  · rw [fileAfterRun_of_open noise openOk prior fuel hopen]
    simp [hlen]

/-- Witness for C3: with zero noise the first CRITICAL tick is tick 21
(temperature 103 > 100, all earlier ticks at most 100), and the run with
fuel 21 halts there with 21 iterations and 22 file lines. -/
theorem loop_halts_first_critical_witness :
    (readAt (fun _ => ((0 : ℚ), (0 : ℚ))) 21).status = 2
    ∧ ((loopRun (fun _ => ((0 : ℚ), (0 : ℚ))) (fun _ => true) 21 1
          prev_data_init).length = 21
      ∧ (∀ i (h : i < (loopRun (fun _ => ((0 : ℚ), (0 : ℚ))) (fun _ => true) 21 1
            prev_data_init).length),
          ((loopRun (fun _ => ((0 : ℚ), (0 : ℚ))) (fun _ => true) 21 1
              prev_data_init).get ⟨i, h⟩).reading
              = readAt (fun _ => ((0 : ℚ), (0 : ℚ))) (1 + i)
          ∧ (i + 1 < 21 →
              ((loopRun (fun _ => ((0 : ℚ), (0 : ℚ))) (fun _ => true) 21 1
                  prev_data_init).get ⟨i, h⟩).reading.status ≠ 2))
      ∧ (∃ tr, (loopRun (fun _ => ((0 : ℚ), (0 : ℚ))) (fun _ => true) 21 1
            prev_data_init).getLast? = some tr
          ∧ tr.reading.status = 2)
      ∧ fileAfterRun [] true (fun _ => ((0 : ℚ), (0 : ℚ))) (fun _ => true) 21
          = some (LogLine.header ::
              (loopRun (fun _ => ((0 : ℚ), (0 : ℚ))) (fun _ => true) 21 1
                prev_data_init).map (fun tr => rowOf tr.reading))
      ∧ Option.map List.length
          (fileAfterRun [] true (fun _ => ((0 : ℚ), (0 : ℚ))) (fun _ => true) 21)
          = some (21 + 1)) := by
  have hcrit : (readAt (fun _ => ((0 : ℚ), (0 : ℚ))) 21).status = 2 := by
    norm_num [readAt, read_sensors, classify, CRITICAL_TEMP, CRITICAL_VIBRATION]
  refine ⟨hcrit, loop_halts_first_critical (fun _ => ((0 : ℚ), (0 : ℚ)))
    (fun _ => true) [] 21 21 (by omega) (by omega) hcrit ?_ (fun t => rfl)⟩
  intro m hm h1
  interval_cases m <;>
    norm_num [readAt, read_sensors, classify, CRITICAL_TEMP, CRITICAL_VIBRATION]

/-- C4: when the startup open and every per-tick open succeed, the file is
exactly one header line followed by one CSV row per executed tick, in tick
order with timestamps 1, 2, 3, … increasing by one, each row's status being
0, 1 or 2; the file is independent of any prior content (truncated at
start). -/
theorem log_file_structure (noise : ℕ → ℚ × ℚ) (openOk : ℕ → Bool)
    (prior : List LogLine) (fuel : ℕ) (hopen : ∀ t, openOk t = true) :
    fileAfterRun prior true noise openOk fuel
      = some (LogLine.header ::
          (loopRun noise openOk fuel 1 prev_data_init).map (fun tr => rowOf tr.reading))
    ∧ (∀ prior' : List LogLine,
        fileAfterRun prior' true noise openOk fuel
          = fileAfterRun prior true noise openOk fuel)
    ∧ List.countP (fun l => l.isHeader)
        (LogLine.header ::
          (loopRun noise openOk fuel 1 prev_data_init).map (fun tr => rowOf tr.reading))
        = 1
    ∧ ((loopRun noise openOk fuel 1 prev_data_init).map (fun tr => rowOf tr.reading)).map
          LogLine.timestampOf
        = List.range' 1 (loopRun noise openOk fuel 1 prev_data_init).length
    ∧ (∀ l ∈ (loopRun noise openOk fuel 1 prev_data_init).map (fun tr => rowOf tr.reading),
        l.isHeader = false ∧ l.statusOf < 3)
    ∧ ((loopRun noise openOk fuel 1 prev_data_init).map (fun tr => rowOf tr.reading)).length
        = (loopRun noise openOk fuel 1 prev_data_init).length := by
  refine ⟨fileAfterRun_of_open noise openOk prior fuel hopen, fun prior' => rfl,
    ?_, ?_, ?_, List.length_map _ _⟩
  · have hrows : List.countP (fun l => l.isHeader)
        ((loopRun noise openOk fuel 1 prev_data_init).map (fun tr => rowOf tr.reading))
        = 0 := by
      rw [List.countP_eq_zero]
      intro a ha
      obtain ⟨tr, -, rfl⟩ := List.mem_map.mp ha
      simp [rowOf, LogLine.isHeader]
    rw [List.countP_cons]
    rw [hrows]
    simp [LogLine.isHeader]
  · apply List.ext_getElem
    · simp
    · intro i h1 h2
      have hi : i < (loopRun noise openOk fuel 1 prev_data_init).length := by
        simpa using h1
      have hg := loopRun_get noise openOk fuel 1 prev_data_init i hi
      simp only [List.get_eq_getElem] at hg
      rw [List.getElem_map, List.getElem_map, List.getElem_range']
      rw [hg]
      show 1 + i = 1 + 1 * i
      omega
  · intro l hl
    obtain ⟨tr, htr, rfl⟩ := List.mem_map.mp hl
    obtain ⟨u, p, rfl⟩ := loopRun_mem_mk noise openOk fuel 1 prev_data_init tr htr
    exact ⟨rfl, classify_lt_three _ _⟩

/-- Witness for C4: a two-tick run with all opens succeeding and zero
noise. -/
theorem log_file_structure_witness :
    (∀ t : ℕ, (fun _ : ℕ => true) t = true)
    ∧ (fileAfterRun [] true (fun _ => ((0 : ℚ), (0 : ℚ))) (fun _ => true) 2
        = some (LogLine.header ::
            (loopRun (fun _ => ((0 : ℚ), (0 : ℚ))) (fun _ => true) 2 1
              prev_data_init).map (fun tr => rowOf tr.reading))
      ∧ (∀ prior' : List LogLine,
          fileAfterRun prior' true (fun _ => ((0 : ℚ), (0 : ℚ))) (fun _ => true) 2
            = fileAfterRun [] true (fun _ => ((0 : ℚ), (0 : ℚ))) (fun _ => true) 2)
      ∧ List.countP (fun l => l.isHeader)
          (LogLine.header ::
            (loopRun (fun _ => ((0 : ℚ), (0 : ℚ))) (fun _ => true) 2 1
              prev_data_init).map (fun tr => rowOf tr.reading))
          = 1
      ∧ ((loopRun (fun _ => ((0 : ℚ), (0 : ℚ))) (fun _ => true) 2 1
            prev_data_init).map (fun tr => rowOf tr.reading)).map LogLine.timestampOf
          = List.range' 1 (loopRun (fun _ => ((0 : ℚ), (0 : ℚ))) (fun _ => true) 2 1
              prev_data_init).length
      ∧ (∀ l ∈ (loopRun (fun _ => ((0 : ℚ), (0 : ℚ))) (fun _ => true) 2 1
            prev_data_init).map (fun tr => rowOf tr.reading),
          l.isHeader = false ∧ l.statusOf < 3)
      ∧ ((loopRun (fun _ => ((0 : ℚ), (0 : ℚ))) (fun _ => true) 2 1
            prev_data_init).map (fun tr => rowOf tr.reading)).length
          = (loopRun (fun _ => ((0 : ℚ), (0 : ℚ))) (fun _ => true) 2 1
              prev_data_init).length) :=
  ⟨fun _ => rfl,
    log_file_structure (fun _ => ((0 : ℚ), (0 : ℚ))) (fun _ => true) [] 2 (fun _ => rfl)⟩

/-- C10: whenever the temperature noise stays within its bounds (only
`0 ≤ n_t` is needed), tick 21 reads temperature `40 + 63 + n_t ≥ 103 > 100`
and is CRITICAL, so with fuel 21 the loop halts within 21 iterations and
`main` returns exit code 0. -/
theorem loop_terminates (noise : ℕ → ℚ × ℚ) (openOk : ℕ → Bool)
    (hb : ∀ t, 0 ≤ (noise t).1 ∧ (noise t).1 ≤ 2) :
    (readAt noise 21).status = 2
    ∧ (loopRun noise openOk 21 1 prev_data_init).length ≤ 21
    ∧ haltedWithin noise openOk 21 = true
    ∧ main_result noise openOk 21 = some 0 := by
  have hcrit : (readAt noise 21).status = 2 := by
    have hb21 := (hb 21).1
    show classify (40 + ((21 : ℕ) : ℚ) * 3 + (noise 21).1)
      (10 + ((21 : ℕ) : ℚ) * 1.5 + (noise 21).2) = 2
    unfold classify CRITICAL_TEMP CRITICAL_VIBRATION
    rw [if_pos (Or.inl (by push_cast; linarith))]
  have hcrit' : (readAt noise (1 + 20)).status = 2 := hcrit
  have hle : (loopRun noise openOk 21 1 prev_data_init).length ≤ 21 := by
    have h := loopRun_length_le_of_crit noise openOk 21 1 prev_data_init 20
      (by omega) hcrit'
    omega
  have hhalt : haltedWithin noise openOk 21 = true := by
    obtain ⟨tr, hlast, hst⟩ := loopRun_getLast_crit noise openOk 21 1 prev_data_init
      ⟨20, by omega, hcrit'⟩
    unfold haltedWithin
    rw [hlast]
    simp [hst]
  refine ⟨hcrit, hle, hhalt, ?_⟩
  unfold main_result
  rw [hhalt]
  simp

/-- Witness for C10: zero noise satisfies the bounds, and the run halts
within 21 ticks with exit code 0. -/
theorem loop_terminates_witness :
    (∀ t : ℕ, (0 : ℚ) ≤ ((fun _ : ℕ => ((0 : ℚ), (0 : ℚ))) t).1
      ∧ ((fun _ : ℕ => ((0 : ℚ), (0 : ℚ))) t).1 ≤ 2)
    ∧ ((readAt (fun _ => ((0 : ℚ), (0 : ℚ))) 21).status = 2
      ∧ (loopRun (fun _ => ((0 : ℚ), (0 : ℚ))) (fun _ => true) 21 1
          prev_data_init).length ≤ 21
      ∧ haltedWithin (fun _ => ((0 : ℚ), (0 : ℚ))) (fun _ => true) 21 = true
      ∧ main_result (fun _ => ((0 : ℚ), (0 : ℚ))) (fun _ => true) 21 = some 0) :=
  ⟨fun _ => ⟨le_refl 0, by norm_num⟩,
    loop_terminates (fun _ => ((0 : ℚ), (0 : ℚ))) (fun _ => true)
      (fun _ => ⟨le_refl 0, by norm_num⟩)⟩

end SentinL
